import Mathlib

set_option autoImplicit false

namespace ClawBridge

/-- Access levels stored in the exposure map `exposedEntities`
(`app.js` line 9): the JS map holds `"read" | "confirm" | "control"`;
`off` is represented by absence of the key. -/
inductive Access where
  | read
  | confirm
  | control
deriving DecidableEq, Repr

/-- The exposure map `exposedEntities` (`{ entity_id: "read"|"confirm"|"control" }`),
embedded as an association list from entity id to access level, in insertion order. -/
abbrev EMap := List (String × Access)

/-- JS property lookup `exposedEntities[entityId]`: value at the (unique) matching key. -/
def lookupE : EMap → String → Option Access
  | [], _ => none
  | (k, a) :: rest, entityId => if k = entityId then some a else lookupE rest entityId

/-- JS `delete exposedEntities[entityId]`: removes the key. -/
def eraseE : EMap → String → EMap
  | [], _ => []
  | (k, a) :: rest, entityId =>
      if k = entityId then eraseE rest entityId else (k, a) :: eraseE rest entityId

/-- JS assignment `exposedEntities[entityId] = access`: updates an existing key in
place, or appends a new key at the end (JS object insertion-order semantics). -/
def insertE : EMap → String → Access → EMap
  | [], entityId, a => [(entityId, a)]
  | (k, b) :: rest, entityId, a =>
      if k = entityId then (k, a) :: rest else (k, b) :: insertE rest entityId a

/-- An entity record as consumed by the selection functions; only the
`entity_id` field is consulted by them. -/
structure Entity where
  entity_id : String
deriving DecidableEq, Repr

/-- Embeds the JS domain extraction `entityId.split('.')[0]` (app.js line 270):
the prefix of the id before the first dot. -/
def domainOf (entityId : String) : String :=
  String.mk (entityId.data.takeWhile (fun c => c ≠ '.'))

/-- The `SENSITIVE_DOMAINS` table (app.js line 19). -/
def SENSITIVE_DOMAINS : List String :=
  ["lock", "cover", "alarm_control_panel", "climate", "valve"]

/-- The `READ_ONLY_DOMAINS` table (app.js line 20). -/
def READ_ONLY_DOMAINS : List String :=
  ["sensor", "binary_sensor", "weather", "sun", "zone", "person",
   "device_tracker", "geo_location", "air_quality", "image"]

/-- The mutable frontend state touched by the exposure-editing functions:
`exposedEntities` (line 9), `undoSnapshot` (line 17), and the staged
`pendingSensitiveCallback` (line 21), the latter modelled by the
`(entityId, access)` pair that the staged closure would apply. -/
structure UIState where
  exposed : EMap
  undoSnapshot : Option EMap
  pendingSensitive : Option (String × Option Access)
deriving DecidableEq, Repr

/-- `_applyAccess` (app.js 286-293): `null` (= off) deletes the key, any other
access level assigns it. -/
def applyAccess (m : EMap) (entityId : String) (access : Option Access) : EMap :=
  match access with
  | none => eraseE m entityId
  | some a => insertE m entityId a

/-- `setEntityAccess` (app.js 269-284): a confirm/control request on a read-only
domain returns without any change; on a sensitive domain it stages the change
behind the confirmation modal; otherwise it applies immediately. -/
def setEntityAccess (st : UIState) (entityId : String) (access : Option Access) : UIState :=
  let domain := domainOf entityId
  if (access = some Access.control ∨ access = some Access.confirm)
      ∧ domain ∈ READ_ONLY_DOMAINS then
    st
  else if (access = some Access.control ∨ access = some Access.confirm)
      ∧ domain ∈ SENSITIVE_DOMAINS then
    { st with pendingSensitive := some (entityId, access) }
  else
    { st with exposed := applyAccess st.exposed entityId access }

/-- `confirmSensitiveModal` (app.js 295-298): runs the staged callback if any,
then clears it. -/
def confirmSensitiveModal (st : UIState) : UIState :=
  match st.pendingSensitive with
  | none => st
  | some (entityId, access) =>
      { st with exposed := applyAccess st.exposed entityId access, pendingSensitive := none }

/-- `cancelSensitiveModal` (app.js 300-303): discards the staged callback. -/
def cancelSensitiveModal (st : UIState) : UIState :=
  { st with pendingSensitive := none }

/-- `getExposedEntities` (app.js 107): the entities whose id has a (truthy)
entry in the exposure map. -/
def getExposedEntities (allEntities : List Entity) (m : EMap) : List Entity :=
  allEntities.filter (fun e => (lookupE m e.entity_id).isSome)

/-- `pushUndo` (app.js 321): snapshots the exposure map. -/
def pushUndo (st : UIState) : UIState :=
  { st with undoSnapshot := some st.exposed }

/-- `undo` (app.js 323-330): restores the snapshot if one exists and clears it. -/
def undo (st : UIState) : UIState :=
  match st.undoSnapshot with
  | none => st
  | some snap => { st with exposed := snap, undoSnapshot := none }

/-- `selectAllVisible` (app.js 334-342); `visible` stands for the result of
`getVisibleEntities()`. Every visible entity is assigned `access` directly,
with no read-only-domain or sensitive-domain check. -/
def selectAllVisible (st : UIState) (visible : List Entity) (access : Access) : UIState :=
  if visible.length = 0 then st
  else
    let st := pushUndo st
    { st with exposed := visible.foldl (fun m e => insertE m e.entity_id access) st.exposed }

/-- `deselectAllVisible` (app.js 344-356); `visible` stands for the result of
`getVisibleEntities()` and `proceed` for the result of the `confirm(...)`
dialog when it is shown (`true` when it is not shown). -/
def deselectAllVisible (st : UIState) (visible : List Entity) (proceed : Bool) : UIState :=
  if visible.length = 0 then st
  else if proceed = false then st
  else
    let st := pushUndo st
    { st with exposed := visible.foldl (fun m e => eraseE m e.entity_id) st.exposed }

/-- The `entities` payload of a stored preset: the current object format
(a map id to level) or the legacy array of ids. -/
inductive PresetEntities where
  | objectFormat (m : EMap)
  | arrayFormat (ids : List String)
deriving DecidableEq, Repr

/-- `applyPreset` (app.js 753-763): the object format replaces the exposure map
wholesale; the legacy array format resets the map and grants `read` to every
listed id. -/
def applyPreset (st : UIState) (entities : PresetEntities) : UIState :=
  match entities with
  | PresetEntities.objectFormat m => { st with exposed := m }
  | PresetEntities.arrayFormat ids =>
      { st with exposed := ids.foldl (fun m eid => insertE m eid Access.read) [] }

/-- Status set of a PendingAction (spec section 3). -/
inductive ActionStatus where
  | pending
  | approved
  | denied
  | expired
deriving DecidableEq, Repr

/-- Modelled from the spec: a PendingAction record (section 3). The
confirmation-queue backend is not among the sources; only its operator
frontend (`approveAction` and `denyAction` in app.js 704-712) is. Times are
in seconds. -/
structure PendingAction where
  entity_id : String
  domain : String
  service : String
  created_at : Nat
  expires_at : Nat
  status : ActionStatus
deriving DecidableEq, Repr

/-- Outcome of an approve or deny call (sections 4.6 and 7): `conflict` when
the action is already resolved. -/
inductive QueueOutcome where
  | approvedOk
  | deniedOk
  | conflict
deriving DecidableEq, Repr

/-- Whether a status is terminal (spec section 4.6: `pending` transitions to
`approved`, `denied` or `expired`, all terminal). -/
def ActionStatus.isTerminal : ActionStatus → Bool
  | ActionStatus.pending => false
  | _ => true

/-- Modelled from the spec: the lazy expiry sweep (section 4.6), triggered on
any queue access: a `pending` action past `expires_at` becomes `expired`. -/
def sweepAction (a : PendingAction) (now : Nat) : PendingAction :=
  if a.status = ActionStatus.pending ∧ a.expires_at ≤ now then
    { a with status := ActionStatus.expired }
  else a

/-- Modelled from the spec: `approve(action_id)` (section 4.6). The queue
backend is not among the sources. Returns the updated action, the outcome,
and whether the upstream platform was invoked. -/
def approveAction (a : PendingAction) (now : Nat) : PendingAction × QueueOutcome × Bool :=
  let a := sweepAction a now
  if a.status = ActionStatus.pending then
    ({ a with status := ActionStatus.approved }, QueueOutcome.approvedOk, true)
  else (a, QueueOutcome.conflict, false)

/-- Modelled from the spec: `deny(action_id)` (section 4.6); never invokes
upstream. The queue backend is not among the sources. -/
def denyAction (a : PendingAction) (now : Nat) : PendingAction × QueueOutcome × Bool :=
  let a := sweepAction a now
  if a.status = ActionStatus.pending then
    ({ a with status := ActionStatus.denied }, QueueOutcome.deniedOk, false)
  else (a, QueueOutcome.conflict, false)

/-- Modelled from the spec: parameter clamping (section 4.5 step 7) of a value
to the constraint interval `[min, max]`; the mediator backend is not among
the sources. -/
def clampParam (lo hi v : Int) : Int :=
  if v < lo then lo else if hi < v then hi else v

/-- Modelled from the spec: a Schedule (section 3) with start and end
time-of-day in minutes since midnight and a weekday set; the
schedule-evaluator backend is not among the sources. The field `endTime`
embeds the record field named `end`, which is a Lean keyword. -/
structure Schedule where
  start : Nat
  endTime : Nat
  days : List Nat
deriving DecidableEq, Repr

/-- Modelled from the spec: `isAllowedNow` (section 4.2): the weekday must be
in the day set and the time-of-day must fall in `[start, end)`; an end time
earlier than start denotes a window wrapping midnight. -/
def isAllowedNow (s : Schedule) (weekday timeOfDay : Nat) : Bool :=
  decide (weekday ∈ s.days) &&
    (if s.endTime < s.start then
      decide (s.start ≤ timeOfDay) || decide (timeOfDay < s.endTime)
     else
      decide (s.start ≤ timeOfDay) && decide (timeOfDay < s.endTime))

/-- Modelled from the spec: one sliding-window rate-limiter check (section
4.3); the rate-limiter backend is not among the sources. The per-identity
state is the list of timestamps (seconds) of requests still counted; a
request at `now` discards entries 60 s old or older, is allowed when fewer
than `limit` remain, and is recorded when allowed. -/
def slideWindow (limit : Nat) (st : List Nat) (now : Nat) : List Nat × Bool :=
  let recent := st.filter (fun s => now < s + 60)
  if recent.length < limit then (now :: recent, true) else (recent, false)

/-- Modelled from the spec: a sequence of requests processed through the
sliding window, yielding the final state and the per-request decisions. -/
def runLimiter (limit : Nat) (st : List Nat) : List Nat → List Nat × List Bool
  | [] => (st, [])
  | t :: rest =>
    let p := slideWindow limit st t
    let r := runLimiter limit p.1 rest
    (r.1, p.2 :: r.2)

/-- A key record as returned by `GET /api/keys` and rendered by `loadApiKeys`
(app.js 576-593), together with the stored credential. Per the spec (section
4.4) the store retains only a salted hash and a truncated preview of the
secret; `secret_hash` stands for that hash. The key-store backend is not
among the sources. -/
structure StoredKey where
  key_id : String
  name : String
  secret_hash : Nat
  key_preview : String
  entity_count : Nat
  rate_limit : Option Nat
deriving DecidableEq, Repr

/-- The visible text rendered for one key by `loadApiKeys` (app.js 585-591):
the name, the preview, the entity count, the rate limit (`global` when unset,
via JS truthiness), and the key id carried by the delete button. -/
def renderKeyItem (k : StoredKey) : String :=
  k.name ++ " " ++ k.key_preview ++ " | " ++ toString k.entity_count ++ " entities | "
    ++ (match k.rate_limit with
        | some r => if r = 0 then "global" else toString r
        | none => "global")
    ++ " rpm | delete:" ++ k.key_id

/-- The key listing as rendered by `loadApiKeys` (app.js 585-591). -/
def renderKeyList (keys : List StoredKey) : List String :=
  keys.map renderKeyItem

/-- Modelled from the spec: `issue` of the API Key Store (section 4.4) - the
raw secret is returned exactly once alongside the stored record; the record
retains only `hash raw` and the truncated `preview raw`. The key-store
backend is not among the sources, so the hash and preview functions are
parameters. -/
def issueKey (hash : String → Nat) (preview : String → String)
    (keyId name raw : String) (count : Nat) (limit : Option Nat) :
    StoredKey × String :=
  ({ key_id := keyId, name := name, secret_hash := hash raw,
     key_preview := preview raw, entity_count := count, rate_limit := limit }, raw)

/-- `createApiKey` (app.js 604-613): the one message that displays the raw key. -/
def createKeyMessage (raw : String) : String :=
  "Key created! Copy this (shown once):\n" ++ raw

/- ═══ Helper lemmas on the exposure map ═══ -/

theorem lookupE_insertE (m : EMap) (k entityId : String) (a : Access) :
    lookupE (insertE m k a) entityId = if k = entityId then some a else lookupE m entityId := by
  induction m with
  | nil => simp [insertE, lookupE]
  | cons p rest ih =>
    obtain ⟨k', b⟩ := p
    by_cases hk : k' = k
    · subst hk
      by_cases hid : k' = entityId <;> simp [insertE, lookupE, hid]
    · by_cases hid : k' = entityId
      · subst hid
        simp [insertE, lookupE, hk, Ne.symm hk]
      · simp [insertE, lookupE, hk, hid, ih]

theorem lookupE_eraseE (m : EMap) (k entityId : String) :
    lookupE (eraseE m k) entityId = if k = entityId then none else lookupE m entityId := by
  induction m with
  | nil => simp [eraseE, lookupE]
  | cons p rest ih =>
    obtain ⟨k', b⟩ := p
    by_cases hk : k' = k
    · subst hk
      by_cases hid : k' = entityId
      · subst hid; simp [eraseE, lookupE, ih]
      · simp [eraseE, lookupE, hid, ih]
    · by_cases hid : k' = entityId
      · subst hid
        simp [eraseE, lookupE, hk, Ne.symm hk, ih]
      · simp [eraseE, lookupE, hk, hid, ih]

theorem eraseE_of_lookupE_none (m : EMap) (entityId : String)
    (h : lookupE m entityId = none) : eraseE m entityId = m := by
  induction m with
  | nil => rfl
  | cons p rest ih =>
    obtain ⟨k, a⟩ := p
    by_cases hk : k = entityId
    · simp [lookupE, hk] at h
    · simp only [lookupE, if_neg hk] at h
      simp [eraseE, hk, ih h]

theorem lookupE_foldl_insertE (a : Access) (ids : List String) :
    ∀ (m : EMap) (entityId : String),
      lookupE (ids.foldl (fun m eid => insertE m eid a) m) entityId
        = if entityId ∈ ids then some a else lookupE m entityId := by
  induction ids with
  | nil => intro m entityId; simp
  | cons e rest ih =>
    intro m entityId
    rw [List.foldl_cons, ih]
    by_cases h1 : entityId ∈ rest
    · simp [h1]
    · rw [lookupE_insertE]
      by_cases h2 : e = entityId
      · subst h2; simp [h1]
      · simp [h1, h2, Ne.symm h2]

theorem runLimiter_under_budget (limit : Nat) :
    ∀ (times st : List Nat), st.length + times.length ≤ limit →
      (∀ b ∈ (runLimiter limit st times).2, b = true) ∧
      (runLimiter limit st times).1.length ≤ st.length + times.length := by
  intro times
  induction times with
  | nil => intro st h; exact ⟨by simp [runLimiter], by simp [runLimiter]⟩
  | cons t rest ih =>
    intro st h
    have hflt : (st.filter (fun s => t < s + 60)).length ≤ st.length :=
      List.length_filter_le _ _
    have hlt : (st.filter (fun s => t < s + 60)).length < limit := by
      simp only [List.length_cons] at h; omega
    have hrec := ih (t :: st.filter (fun s => t < s + 60))
      (by simp only [List.length_cons] at h ⊢; omega)
    simp only [runLimiter, slideWindow]
    rw [if_pos hlt]
    refine ⟨?_, ?_⟩
    · intro b hb
      simp only [List.mem_cons] at hb
      rcases hb with hb | hb
      · exact hb
      · exact hrec.1 b hb
    · have := hrec.2
      simp only [List.length_cons] at this ⊢
      omega

theorem runLimiter_state_no_prune (limit : Nat) :
    ∀ (times st : List Nat),
      st.length + times.length ≤ limit →
      (∀ a ∈ st, ∀ t ∈ times, t < a + 60) →
      (∀ a ∈ times, ∀ b ∈ times, b < a + 60) →
      (runLimiter limit st times).1 = times.reverse ++ st := by
  intro times
  induction times with
  | nil => intro st _ _ _; simp [runLimiter]
  | cons t rest ih =>
    intro st hlen hst hmut
    have hfilter : st.filter (fun s => t < s + 60) = st :=
      List.filter_eq_self.mpr (fun a ha => by
        simpa using hst a ha t (List.mem_cons_self t rest))
    have hlt : (st.filter (fun s => t < s + 60)).length < limit := by
      rw [hfilter]; simp only [List.length_cons] at hlen; omega
    simp only [runLimiter, slideWindow]
    rw [if_pos hlt, hfilter]
    rw [ih (t :: st)
      (by simp only [List.length_cons] at hlen ⊢; omega)
      (by
        intro a ha r hr
        rcases List.mem_cons.mp ha with ha | ha
        · rw [ha]
          exact hmut t (List.mem_cons_self t rest) r (List.mem_cons_of_mem t hr)
        · exact hst a ha r (List.mem_cons_of_mem t hr))
      (by
        intro a ha b hb
        exact hmut a (List.mem_cons_of_mem t ha) b (List.mem_cons_of_mem t hb))]
    simp

/- ═══ Claim theorems ═══ -/

/-- C1, counterexample: the claim as stated is false. `selectAllVisible` is one
of the named operations mutating the exposure registry, `sensor.temp` belongs
to the fixed read-only-domain set, yet bulk-setting the visible entities to
`control` leaves the registry with `sensor.temp` at `control` instead of
rejecting the attempt. -/
theorem selectAllVisible_read_only_counterexample :
    domainOf "sensor.temp" ∈ READ_ONLY_DOMAINS ∧
    lookupE
      ((selectAllVisible ⟨[], none, none⟩ [⟨"sensor.temp"⟩] Access.control).exposed)
      "sensor.temp" = some Access.control := by
  decide

/-- C1, amended: only the single-entity set enforces the read-only-domain
restriction. `setEntityAccess` rejects any attempt to set `confirm` or
`control` on an entity of a read-only domain, leaving the whole UI state
(exposure map included) unchanged; the bulk set over visible entities and the
preset import perform no such check. -/
theorem setEntityAccess_read_only_rejected
    (st : UIState) (entityId : String) (access : Option Access)
    (hdom : domainOf entityId ∈ READ_ONLY_DOMAINS)
    (hacc : access = some Access.confirm ∨ access = some Access.control) :
    setEntityAccess st entityId access = st := by
  rcases hacc with h | h <;> subst h <;> simp [setEntityAccess, hdom]

/-- C1 witness: the rejection theorem applied to `sensor.kitchen` and `control`. -/
theorem setEntityAccess_read_only_rejected_witness :
    domainOf "sensor.kitchen" ∈ READ_ONLY_DOMAINS ∧
    setEntityAccess ⟨[("light.desk", Access.read)], none, none⟩ "sensor.kitchen"
      (some Access.control) = ⟨[("light.desk", Access.read)], none, none⟩ :=
  ⟨by decide,
   setEntityAccess_read_only_rejected ⟨[("light.desk", Access.read)], none, none⟩
     "sensor.kitchen" (some Access.control) (by decide) (Or.inr rfl)⟩

/-- C2: setting an entity to off (`null`) deletes its map entry, so an entity
set to off and an entity never configured are represented identically (the
lookup is `none`, and deleting an absent entry changes nothing), and the
exposed-entities view contains exactly the listed entities whose lookup is
present - never an off/absent one. -/
theorem off_is_absence (st : UIState) (m : EMap) (entityId : String)
    (allEntities : List Entity) (e : Entity) :
    applyAccess m entityId none = eraseE m entityId ∧
    (setEntityAccess st entityId none).exposed = eraseE st.exposed entityId ∧
    lookupE (applyAccess m entityId none) entityId = none ∧
    (lookupE m entityId = none → applyAccess m entityId none = m) ∧
    (e ∈ getExposedEntities allEntities m ↔
      e ∈ allEntities ∧ (lookupE m e.entity_id).isSome = true) := by
  refine ⟨rfl, ?_, ?_, ?_, ?_⟩
  · simp [setEntityAccess, applyAccess]
  · simp [applyAccess, lookupE_eraseE]
  · intro h; simp [applyAccess, eraseE_of_lookupE_none m entityId h]
  · simp [getExposedEntities, List.mem_filter]

/-- C2 witness: the theorem applied to a concrete map where `light.a` is set to
off and `sensor.b` was never configured. -/
theorem off_is_absence_witness :
    lookupE [("light.a", Access.read)] "sensor.b" = none ∧
    applyAccess [("light.a", Access.read)] "sensor.b" none = [("light.a", Access.read)] ∧
    lookupE (applyAccess [("light.a", Access.read)] "light.a" none) "light.a" = none ∧
    (⟨"light.a"⟩ ∈ getExposedEntities [⟨"light.a"⟩, ⟨"sensor.b"⟩] [("light.a", Access.read)] ↔
      (⟨"light.a"⟩ : Entity) ∈ [(⟨"light.a"⟩ : Entity), ⟨"sensor.b"⟩] ∧
      (lookupE [("light.a", Access.read)] "light.a").isSome = true) :=
  ⟨by decide,
   (off_is_absence ⟨[], none, none⟩ [("light.a", Access.read)] "sensor.b" [] ⟨""⟩).2.2.2.1
     (by decide),
   (off_is_absence ⟨[], none, none⟩ [("light.a", Access.read)] "light.a" [] ⟨""⟩).2.2.1,
   (off_is_absence ⟨[], none, none⟩ [("light.a", Access.read)] "light.a"
     [⟨"light.a"⟩, ⟨"sensor.b"⟩] ⟨"light.a"⟩).2.2.2.2⟩

/-- C8: requesting `confirm` or `control` on an entity of a sensitive domain
leaves the exposure map unchanged at the time of the call and stages the
change; `confirmSensitiveModal` then applies exactly the staged change, while
`cancelSensitiveModal` discards it and leaves the exposure map as it was. -/
theorem sensitive_staging_frame (st : UIState) (entityId : String) (access : Option Access)
    (hdom : domainOf entityId ∈ SENSITIVE_DOMAINS)
    (hacc : access = some Access.confirm ∨ access = some Access.control) :
    (setEntityAccess st entityId access).exposed = st.exposed ∧
    (setEntityAccess st entityId access).pendingSensitive = some (entityId, access) ∧
    confirmSensitiveModal (setEntityAccess st entityId access) =
      { st with exposed := applyAccess st.exposed entityId access,
                pendingSensitive := none } ∧
    cancelSensitiveModal (setEntityAccess st entityId access) =
      { st with pendingSensitive := none } := by
  have hro : domainOf entityId ∉ READ_ONLY_DOMAINS := by
    simp only [SENSITIVE_DOMAINS, List.mem_cons, List.not_mem_nil, or_false] at hdom
    rcases hdom with h | h | h | h | h <;> rw [h] <;> decide
  rcases hacc with h | h <;> subst h <;>
    simp [setEntityAccess, confirmSensitiveModal, cancelSensitiveModal, hdom, hro]

/-- C8 witness: the staging theorem applied to `lock.front_door` and `control`. -/
theorem sensitive_staging_frame_witness :
    domainOf "lock.front_door" ∈ SENSITIVE_DOMAINS ∧
    ((setEntityAccess ⟨[("light.desk", Access.read)], none, none⟩ "lock.front_door"
        (some Access.control)).exposed = [("light.desk", Access.read)] ∧
      (setEntityAccess ⟨[("light.desk", Access.read)], none, none⟩ "lock.front_door"
        (some Access.control)).pendingSensitive
        = some ("lock.front_door", some Access.control) ∧
      confirmSensitiveModal (setEntityAccess ⟨[("light.desk", Access.read)], none, none⟩
        "lock.front_door" (some Access.control)) =
        ⟨applyAccess [("light.desk", Access.read)] "lock.front_door" (some Access.control),
          none, none⟩ ∧
      cancelSensitiveModal (setEntityAccess ⟨[("light.desk", Access.read)], none, none⟩
        "lock.front_door" (some Access.control)) =
        ⟨[("light.desk", Access.read)], none, none⟩) :=
  ⟨by decide,
   sensitive_staging_frame ⟨[("light.desk", Access.read)], none, none⟩ "lock.front_door"
     (some Access.control) (by decide) (Or.inr rfl)⟩

/-- C9, counterexample: the claim as stated is false. When the visible set is
empty the bulk operation returns before snapshotting, so an immediately
following `undo` restores a stale snapshot instead of the value the map held
before the bulk operation. -/
theorem bulk_undo_counterexample :
    (undo (selectAllVisible ⟨[("light.a", Access.read)], some [], none⟩ [] Access.read)).exposed
      ≠ [("light.a", Access.read)] := by
  decide

/-- C9, amended: for every exposure-map state and every nonempty set of visible
entities, `selectAllVisible` (any access level) or `deselectAllVisible` (with
the confirmation dialog accepted or not shown) followed immediately by `undo`
restores the exposure map to exactly its value before the bulk operation. -/
theorem bulk_undo_roundtrip (st : UIState) (visible : List Entity) (access : Access)
    (hne : visible ≠ []) :
    (undo (selectAllVisible st visible access)).exposed = st.exposed ∧
    (undo (deselectAllVisible st visible true)).exposed = st.exposed := by
  have hlen : ¬visible.length = 0 := fun h => hne (List.length_eq_zero.mp h)
  constructor <;> simp [selectAllVisible, deselectAllVisible, pushUndo, undo, hlen]

/-- C9 witness: the round-trip theorem applied to a concrete one-entity bulk set. -/
theorem bulk_undo_roundtrip_witness :
    ([⟨"light.a"⟩] : List Entity) ≠ [] ∧
    ((undo (selectAllVisible ⟨[("switch.k", Access.control)], some [], none⟩ [⟨"light.a"⟩]
        Access.read)).exposed = [("switch.k", Access.control)] ∧
      (undo (deselectAllVisible ⟨[("switch.k", Access.control)], some [], none⟩ [⟨"light.a"⟩]
        true)).exposed = [("switch.k", Access.control)]) :=
  ⟨by decide,
   bulk_undo_roundtrip ⟨[("switch.k", Access.control)], some [], none⟩ [⟨"light.a"⟩]
     Access.read (by decide)⟩

/-- C10: loading a preset whose entities payload is the legacy array format
grants exactly `read` to precisely the listed ids: the lookup of any id in the
resulting exposure map is `read` when listed and absent otherwise, so no
entity is ever granted `confirm` or `control`. -/
theorem applyPreset_array_grants_read (st : UIState) (ids : List String) (entityId : String) :
    lookupE (applyPreset st (PresetEntities.arrayFormat ids)).exposed entityId
      = if entityId ∈ ids then some Access.read else none := by
  simp [applyPreset, lookupE_foldl_insertE, lookupE]

/-- C3: PendingAction transitions are monotonic. Approving a pending,
unexpired action yields `approved` and invokes upstream exactly then; any
later approve or deny on the result returns `conflict` without invoking
upstream; and in general every terminal status absorbs the sweep, approve and
deny operations unchanged. -/
theorem pendingAction_terminal_monotonic (a : PendingAction) (now later : Nat)
    (hp : a.status = ActionStatus.pending) (hexp : now < a.expires_at) :
    ((approveAction a now).1.status = ActionStatus.approved ∧
      (approveAction a now).2 = (QueueOutcome.approvedOk, true)) ∧
    (approveAction (approveAction a now).1 later).2 = (QueueOutcome.conflict, false) ∧
    (denyAction (approveAction a now).1 later).2 = (QueueOutcome.conflict, false) ∧
    (∀ (b : PendingAction) (t : Nat), b.status.isTerminal = true →
      sweepAction b t = b ∧
      approveAction b t = (b, QueueOutcome.conflict, false) ∧
      denyAction b t = (b, QueueOutcome.conflict, false)) := by
  have hne : ¬a.expires_at ≤ now := Nat.not_le.mpr hexp
  have habs : ∀ (b : PendingAction) (t : Nat), b.status.isTerminal = true →
      sweepAction b t = b ∧
      approveAction b t = (b, QueueOutcome.conflict, false) ∧
      denyAction b t = (b, QueueOutcome.conflict, false) := by
    intro b t hterm
    have hbp : ¬b.status = ActionStatus.pending := by
      intro h; rw [h] at hterm; exact Bool.false_ne_true hterm
    refine ⟨?_, ?_, ?_⟩ <;> simp [sweepAction, approveAction, denyAction, hbp]
  have hfirst : approveAction a now =
      ({ a with status := ActionStatus.approved }, QueueOutcome.approvedOk, true) := by
    simp [approveAction, sweepAction, hp, hne]
  refine ⟨by rw [hfirst]; exact ⟨rfl, rfl⟩, ?_, ?_, habs⟩
  · rw [hfirst, (habs { a with status := ActionStatus.approved } later rfl).2.1]
  · rw [hfirst, (habs { a with status := ActionStatus.approved } later rfl).2.2]

/-- C3 witness: the monotonicity theorem applied to a concrete pending action
approved at time 10 (well before expiry at 120) and touched again at 500. -/
theorem pendingAction_terminal_monotonic_witness :
    (PendingAction.mk "light.office" "light" "turn_on" 0 120 ActionStatus.pending).status
      = ActionStatus.pending ∧
    10 < 120 ∧
    (((approveAction
        (PendingAction.mk "light.office" "light" "turn_on" 0 120 ActionStatus.pending)
        10).1.status = ActionStatus.approved ∧
      (approveAction
        (PendingAction.mk "light.office" "light" "turn_on" 0 120 ActionStatus.pending)
        10).2 = (QueueOutcome.approvedOk, true)) ∧
      (approveAction (approveAction
        (PendingAction.mk "light.office" "light" "turn_on" 0 120 ActionStatus.pending)
        10).1 500).2 = (QueueOutcome.conflict, false) ∧
      (denyAction (approveAction
        (PendingAction.mk "light.office" "light" "turn_on" 0 120 ActionStatus.pending)
        10).1 500).2 = (QueueOutcome.conflict, false) ∧
      (∀ (b : PendingAction) (t : Nat), b.status.isTerminal = true →
        sweepAction b t = b ∧
        approveAction b t = (b, QueueOutcome.conflict, false) ∧
        denyAction b t = (b, QueueOutcome.conflict, false))) :=
  ⟨rfl, by decide,
   pendingAction_terminal_monotonic
     (PendingAction.mk "light.office" "light" "turn_on" 0 120 ActionStatus.pending)
     10 500 rfl (by decide)⟩

/-- C4: clamping to a constraint interval `[lo, hi]` returns in-range values
unchanged, maps a value below `lo` exactly to `lo` and a value above `hi`
exactly to `hi`, and is therefore idempotent. -/
theorem clampParam_idempotent (lo hi v : Int) (h : lo ≤ hi) :
    (lo ≤ v → v ≤ hi → clampParam lo hi v = v) ∧
    (v < lo → clampParam lo hi v = lo) ∧
    (hi < v → clampParam lo hi v = hi) ∧
    clampParam lo hi (clampParam lo hi v) = clampParam lo hi v := by
  refine ⟨?_, ?_, ?_, ?_⟩ <;>
    · intros; unfold clampParam; split_ifs <;> omega

/-- C4 witness: the clamping theorem applied to the spec scenario
`brightness ∈ [1, 200]` with requested value 255. -/
theorem clampParam_idempotent_witness :
    (1 : Int) ≤ 200 ∧ (200 : Int) < 255 ∧
    clampParam 1 200 255 = 200 ∧
    clampParam 1 200 (clampParam 1 200 255) = clampParam 1 200 255 :=
  ⟨by decide, by decide,
   (clampParam_idempotent 1 200 255 (by decide)).2.2.1 (by decide),
   (clampParam_idempotent 1 200 255 (by decide)).2.2.2⟩

/-- C5: when the end time-of-day is earlier than the start the window wraps
midnight, and evaluation allows time `t` on an allowed weekday exactly when
`start ≤ t` or `t < end`. -/
theorem isAllowedNow_midnight_wrap (s : Schedule) (weekday t : Nat)
    (hwrap : s.endTime < s.start) :
    isAllowedNow s weekday t = true ↔
      weekday ∈ s.days ∧ (s.start ≤ t ∨ t < s.endTime) := by
  simp [isAllowedNow, hwrap]

/-- C5 witness: the wrap theorem applied to the window 22:00 to 06:00 (in
minutes: 1320 to 360, all weekdays): 23:30 (1410) and 02:00 (120) are
allowed, 12:00 (720) is denied. -/
theorem isAllowedNow_midnight_wrap_witness :
    (360 : Nat) < 1320 ∧
    isAllowedNow ⟨1320, 360, [0, 1, 2, 3, 4, 5, 6]⟩ 2 1410 = true ∧
    isAllowedNow ⟨1320, 360, [0, 1, 2, 3, 4, 5, 6]⟩ 3 120 = true ∧
    isAllowedNow ⟨1320, 360, [0, 1, 2, 3, 4, 5, 6]⟩ 4 720 = false :=
  ⟨by decide,
   (isAllowedNow_midnight_wrap ⟨1320, 360, [0, 1, 2, 3, 4, 5, 6]⟩ 2 1410 (by decide)).mpr
     (by decide),
   (isAllowedNow_midnight_wrap ⟨1320, 360, [0, 1, 2, 3, 4, 5, 6]⟩ 3 120 (by decide)).mpr
     (by decide),
   by decide⟩

/-- C7: the key listing is independent of the raw secret value. Issuing two
keys from raw secrets with the same truncated preview (identical otherwise in
name, id, entity count and rate limit) renders identical listing entries,
whatever their hashes; only the creation message contains the raw secret. -/
theorem apiKey_listing_secret_independent (hash : String → Nat)
    (preview : String → String) (keyId name raw1 raw2 : String)
    (count : Nat) (limit : Option Nat)
    (hprev : preview raw1 = preview raw2) :
    renderKeyItem (issueKey hash preview keyId name raw1 count limit).1
      = renderKeyItem (issueKey hash preview keyId name raw2 count limit).1 ∧
    renderKeyList [(issueKey hash preview keyId name raw1 count limit).1]
      = renderKeyList [(issueKey hash preview keyId name raw2 count limit).1] ∧
    createKeyMessage (issueKey hash preview keyId name raw1 count limit).2
      = "Key created! Copy this (shown once):\n" ++ raw1 := by
  refine ⟨?_, ?_, rfl⟩ <;> simp [renderKeyList, renderKeyItem, issueKey, hprev]

/-- C7 witness: the independence theorem applied to two raw secrets sharing
the preview `cb_s` but hashing differently (here the hash is the length). -/
theorem apiKey_listing_secret_independent_witness :
    ("cb_sAAAA".take 4 = "cb_sBB".take 4) ∧
    renderKeyItem (issueKey String.length (fun s => s.take 4) "k1" "agent"
        "cb_sAAAA" 3 none).1
      = renderKeyItem (issueKey String.length (fun s => s.take 4) "k1" "agent"
        "cb_sBB" 3 none).1 :=
  ⟨by decide,
   (apiKey_listing_secret_independent String.length (fun s => s.take 4) "k1" "agent"
     "cb_sAAAA" "cb_sBB" 3 none (by decide)).1⟩

/-- C6: sliding-window-per-minute semantics. From an empty state any first
`limit` requests are all allowed; after `limit` requests that lie within one
rolling 60-second window, a further request still inside that window is
rejected; and a request finding every counted timestamp 60 seconds old or
older is allowed again. -/
theorem rateLimiter_sliding_window (limit : Nat) (times : List Nat) (now : Nat)
    (st : List Nat)
    (hlen : times.length = limit)
    (hmut : ∀ a ∈ times, ∀ b ∈ times, b < a + 60)
    (hwin : ∀ a ∈ times, now < a + 60)
    (hold : ∀ s ∈ st, s + 60 ≤ now)
    (hpos : 0 < limit) :
    (∀ (ts : List Nat), ts.length ≤ limit → ∀ b ∈ (runLimiter limit [] ts).2, b = true) ∧
    (slideWindow limit (runLimiter limit [] times).1 now).2 = false ∧
    (slideWindow limit st now).2 = true := by
  refine ⟨?_, ?_, ?_⟩
  · intro ts hts
    exact (runLimiter_under_budget limit ts [] (by simpa using hts)).1
  · have hstate : (runLimiter limit [] times).1 = times.reverse ++ [] :=
      runLimiter_state_no_prune limit times []
        (by simpa using hlen.le) (by simp) hmut
    have hfilter : times.reverse.filter (fun s => now < s + 60) = times.reverse :=
      List.filter_eq_self.mpr (fun a ha => by
        simpa using hwin a (List.mem_reverse.mp ha))
    rw [hstate, List.append_nil]
    simp only [slideWindow, hfilter]
    rw [if_neg (by simp [hlen])]
  · have hfilter : st.filter (fun s => now < s + 60) = [] :=
      List.filter_eq_nil_iff.mpr (fun a ha => by
        have := hold a ha
        simp only [decide_eq_true_eq]
        omega)
    simp [slideWindow, hfilter, hpos]

/-- C6 witness: the sliding-window theorem applied to limit 2, two requests at
times 20 and 30, a third attempt at time 70 (inside their window), and a
counted-timestamp list `[5]` that is fully 60 seconds old at time 70. -/
theorem rateLimiter_sliding_window_witness :
    ([20, 30] : List Nat).length = 2 ∧
    (∀ a ∈ ([20, 30] : List Nat), ∀ b ∈ ([20, 30] : List Nat), b < a + 60) ∧
    (∀ a ∈ ([20, 30] : List Nat), 70 < a + 60) ∧
    (∀ s ∈ ([5] : List Nat), s + 60 ≤ 70) ∧
    ((∀ (ts : List Nat), ts.length ≤ 2 → ∀ b ∈ (runLimiter 2 [] ts).2, b = true) ∧
      (slideWindow 2 (runLimiter 2 [] [20, 30]).1 70).2 = false ∧
      (slideWindow 2 [5] 70).2 = true) :=
  ⟨rfl, by decide, by decide, by decide,
   rateLimiter_sliding_window 2 [20, 30] 70 [5] rfl (by decide) (by decide) (by decide)
     (by decide)⟩

end ClawBridge
